import Mathlib

/-!
Shallow embedding of the `date_time` Rust crate (src/date_utils.rs,
src/date_tuple.rs, src/month_tuple.rs, src/time_tuple.rs,
src/date_time_tuple.rs) and proofs about its specification claims.

Machine integers (u8/u16/u32/u64/i32) are modelled as `Nat`/`Int`; a
`% 2^w` (or the two's-complement `i32_wrap`) is written explicitly at
the places where the source performs a narrowing cast (`as u8`,
`as u32`) or where overflow is reachable and release builds wrap: the
i32 total of `TimeTuple::new`, the u16 year addition of
`DateTuple::add_years`, and the unsigned subtractions of `Duration`.
Fallible Rust functions returning `Result<T, String>` are modelled as
`Except String T`.
-/

namespace DT

/-- From src/date_utils.rs `is_leap_year`: divisible by 4 and
(not divisible by 100 or divisible by 400). -/
def is_leap_year (year : Nat) : Bool :=
  year % 4 == 0 && (year % 100 != 0 || year % 400 == 0)

/-- From src/date_utils.rs `get_last_date_in_month`: last date of the
**zero-based** `month` in `year`. -/
def get_last_date_in_month (month : Nat) (year : Nat) : Nat :=
  match month with
  | 1 => if is_leap_year year then 29 else 28
  | 0 | 2 | 4 | 6 | 7 | 9 | 11 => 31
  | _ => 30

/-- Number of days in `year`: 366 for a leap year else 365
(constants DAYS_IN_A_LEAP_YEAR / DAYS_IN_A_COMMON_YEAR in
src/date_tuple.rs). -/
def daysInYear (year : Nat) : Nat :=
  if is_leap_year year then 366 else 365

/-- From src/date_tuple.rs: a date as year (u16), zero-based month (u8),
day (u8). -/
structure DateTuple where
  y : Nat
  m : Nat
  d : Nat
deriving DecidableEq

/-- Rust's `{:?}` (Debug) rendering of a `DateTuple`, used inside the
error strings of `DateTuple::new`. -/
def DateTuple.dbg (t : DateTuple) : String :=
  "DateTuple \x7b y: " ++ toString t.y ++ ", m: " ++ toString t.m
    ++ ", d: " ++ toString t.d ++ " \x7d"

/-- Error string of the `year > 9999` branch of `DateTuple::new`. -/
def DateTuple.msgYear (t : DateTuple) : String :=
  "Invalid year in DateTuple " ++ t.dbg ++ ": year must be <= 9999."

/-- Error string of the invalid-day branch of `DateTuple::new`. -/
def DateTuple.msgDate (t : DateTuple) : String :=
  "Invalid date in DateTuple: " ++ t.dbg

/-- Error string of the invalid-month branch of `DateTuple::new`. -/
def DateTuple.msgMonth (t : DateTuple) : String :=
  "Invalid month in DateTuple: " ++ t.dbg
    ++ "\nMonth must be <= 11; Note that months are ZERO-BASED."

/-- From src/date_tuple.rs `DateTuple::new`: validated constructor.
Months are zero-based (`m <= 11`). -/
def DateTuple.new (y m d : Nat) : Except String DateTuple :=
  if 9999 < y then
    .error (DateTuple.msgYear ⟨y, m, d⟩)
  else if m ≤ 11 then
    if d = 0 ∨ get_last_date_in_month m y < d then
      .error (DateTuple.msgDate ⟨y, m, d⟩)
    else
      .ok ⟨y, m, d⟩
  else
    .error (DateTuple.msgMonth ⟨y, m, d⟩)

/-- The validity invariant guaranteed by `DateTuple::new`. -/
def DateTuple.valid (t : DateTuple) : Prop :=
  t.y ≤ 9999 ∧ t.m ≤ 11 ∧ 1 ≤ t.d ∧ t.d ≤ get_last_date_in_month t.m t.y

instance (t : DateTuple) : Decidable t.valid := by
  unfold DateTuple.valid; infer_instance

/-- Sum of `daysInYear` over the `k` consecutive years starting at `y0`;
`sumYearDays 0 y` is what the year loop of `DateTuple::to_days`
accumulates. -/
def sumYearDays (y0 : Nat) : Nat → Nat
  | 0 => 0
  | k + 1 => daysInYear y0 + sumYearDays (y0 + 1) k

/-- Sum of `get_last_date_in_month` over the `k` consecutive months of
`year` starting at `m0`; `sumMonthDays y 0 m` is what the month loop of
`DateTuple::to_days` accumulates. -/
def sumMonthDays (year : Nat) (m0 : Nat) : Nat → Nat
  | 0 => 0
  | k + 1 => get_last_date_in_month m0 year + sumMonthDays year (m0 + 1) k

/-- From src/date_tuple.rs `DateTuple::to_days`: total number of days in
the tuple (day 1 is 0000-01-01). -/
def DateTuple.to_days (t : DateTuple) : Nat :=
  sumYearDays 0 t.y + sumMonthDays t.y 0 t.m + t.d

theorem daysInYear_pos (y : Nat) : 365 ≤ daysInYear y := by
  unfold daysInYear; split <;> omega

theorem lastDate_ge (m y : Nat) : 28 ≤ get_last_date_in_month m y := by
  unfold get_last_date_in_month
  split <;> first | omega | (split <;> omega)

theorem lastDate_le (m y : Nat) : get_last_date_in_month m y ≤ 31 := by
  unfold get_last_date_in_month
  split <;> first | omega | (split <;> omega)

/-- The year loop of `DateTuple::from_days`: repeatedly peel off whole
years while more days remain than the current year holds. Returns the
remaining days and the year counter. -/
def yearLoop (total_days : Nat) (years : Nat) : Nat × Nat :=
  if daysInYear years < total_days then
    yearLoop (total_days - daysInYear years) (years + 1)
  else
    (total_days, years)
termination_by total_days
decreasing_by
  have := daysInYear_pos years; omega

/-- The month loop of `DateTuple::from_days`: peels off whole months of
`years` while more days remain than the current month holds. -/
def monthLoop (years : Nat) (total_days : Nat) (months : Nat) : Nat × Nat :=
  if get_last_date_in_month months years < total_days then
    monthLoop years (total_days - get_last_date_in_month months years) (months + 1)
  else
    (total_days, months)
termination_by total_days
decreasing_by
  have := lastDate_ge months years; omega

/-- From src/date_tuple.rs `DateTuple::from_days`: decodes a total day
count back into a date. The `% 256` mirrors the `total_days as u8`
narrowing in the final `DateTuple::new` call. (The Rust `years` counter
is a u16; it is modelled as an unbounded `Nat` here, which agrees with
the source on every in-range input and on every value its only caller,
date addition, can produce.) -/
def DateTuple.from_days (total_days : Nat) : Except String DateTuple :=
  let p := yearLoop total_days 0
  let q := monthLoop p.2 p.1 0
  DateTuple.new p.2 q.2 (q.1 % 256)

theorem sumYearDays_succ_right (y0 k : Nat) :
    sumYearDays y0 (k + 1) = sumYearDays y0 k + daysInYear (y0 + k) := by
  induction k generalizing y0 with
  | zero => simp [sumYearDays]
  | succ n ih =>
    rw [sumYearDays, ih (y0 + 1), sumYearDays]
    have h1 : y0 + 1 + n = y0 + (n + 1) := by omega
    rw [h1]
    omega

theorem sumMonthDays_succ_right (y m0 k : Nat) :
    sumMonthDays y m0 (k + 1)
      = sumMonthDays y m0 k + get_last_date_in_month (m0 + k) y := by
  induction k generalizing m0 with
  | zero => simp [sumMonthDays]
  | succ n ih =>
    rw [sumMonthDays, ih (m0 + 1), sumMonthDays]
    have h1 : m0 + 1 + n = m0 + (n + 1) := by omega
    rw [h1]
    omega

/-- Unfolds `is_leap_year` into arithmetic facts usable by `omega`. -/
theorem is_leap_year_iff (y : Nat) :
    is_leap_year y = true ↔ (y % 4 = 0 ∧ (y % 100 ≠ 0 ∨ y % 400 = 0)) := by
  simp [is_leap_year]

/-- Closed form for the day total of whole years `0, 1, ..., n - 1`:
365 per year plus one day per leap year, counted by the Gregorian rule. -/
theorem sumYearDays_closed (n : Nat) :
    sumYearDays 0 n + (n + 99) / 100
      = 365 * n + (n + 3) / 4 + (n + 399) / 400 := by
  induction n with
  | zero => simp [sumYearDays]
  | succ k ih =>
    rw [sumYearDays_succ_right, Nat.zero_add]
    have hiff := is_leap_year_iff k
    unfold daysInYear
    split
    · rename_i h
      have hl := hiff.mp h
      omega
    · rename_i h
      have hn : ¬(k % 4 = 0 ∧ (k % 100 ≠ 0 ∨ k % 400 = 0)) := fun hc =>
        h (hiff.mpr hc)
      omega

/-- The twelve months of `year` add up to exactly the length of `year`. -/
theorem sumMonthDays_year (y : Nat) : sumMonthDays y 0 12 = daysInYear y := by
  cases h : is_leap_year y <;>
    simp [sumMonthDays, get_last_date_in_month, daysInYear, h]

theorem sumMonthDays_le (y k k' : Nat) (h : k ≤ k') :
    sumMonthDays y 0 k ≤ sumMonthDays y 0 k' := by
  induction k' with
  | zero =>
    have hk : k = 0 := by omega
    subst hk
    exact Nat.le_refl _
  | succ n ih =>
    rcases Nat.lt_or_ge k (n + 1) with hlt | hge
    · rw [sumMonthDays_succ_right]
      have := ih (by omega)
      omega
    · have hk : k = n + 1 := by omega
      subst hk
      exact Nat.le_refl _

theorem sumYearDays_0_2000 : sumYearDays 0 2000 = 730485 := by
  have := sumYearDays_closed 2000
  omega

theorem sumYearDays_0_9999 : sumYearDays 0 9999 = 3652060 := by
  have := sumYearDays_closed 9999
  omega

theorem sumYearDays_0_10000 : sumYearDays 0 10000 = 3652425 := by
  have := sumYearDays_closed 10000
  omega

theorem to_days_eq (t : DateTuple) :
    t.to_days = sumYearDays 0 t.y + sumMonthDays t.y 0 t.m + t.d := rfl

theorem to_days_mk (y m d : Nat) :
    DateTuple.to_days ⟨y, m, d⟩ = sumYearDays 0 y + sumMonthDays y 0 m + d :=
  rfl

theorem valid_mk (y m d : Nat) :
    DateTuple.valid ⟨y, m, d⟩
      ↔ (y ≤ 9999 ∧ m ≤ 11 ∧ 1 ≤ d ∧ d ≤ get_last_date_in_month m y) :=
  Iff.rfl

/-- `to_days` of 29 February 2000 (zero-based month 1). -/
theorem to_days_feb_29_2000 : DateTuple.to_days ⟨2000, 1, 29⟩ = 730545 := by
  rw [to_days_eq]
  norm_num [sumMonthDays, get_last_date_in_month, sumYearDays_0_2000]

/-- The months January to November of 9999 hold 334 days. -/
theorem sumMonthDays_9999_11 : sumMonthDays 9999 0 11 = 334 := by
  have h12 := sumMonthDays_year 9999
  rw [show (12 : Nat) = 11 + 1 from rfl, sumMonthDays_succ_right] at h12
  have hy : daysInYear 9999 = 365 := by
    simp [daysInYear, is_leap_year]
  have hlast : get_last_date_in_month (0 + 11) 9999 = 31 := by
    norm_num [get_last_date_in_month]
  omega

/-- `to_days` of the maximum date 31 December 9999 (zero-based month 11). -/
theorem to_days_max : DateTuple.to_days ⟨9999, 11, 31⟩ = 3652425 := by
  rw [to_days_eq]
  norm_num [sumMonthDays_9999_11, sumYearDays_0_9999]

/-- `to_days` of the minimum date 1 January 0000. -/
theorem to_days_min : DateTuple.to_days ⟨0, 0, 1⟩ = 1 := by
  rw [to_days_eq]
  norm_num [sumMonthDays, sumYearDays]

/-- Advancing the year loop over `k` whole years: starting at year `y0`
with the days of years `y0..y0+k-1` plus a remainder that fits inside
year `y0 + k`, the loop stops at year `y0 + k` with the remainder. -/
theorem yearLoop_advance (k : Nat) :
    ∀ y0 r, 1 ≤ r → r ≤ daysInYear (y0 + k) →
      yearLoop (sumYearDays y0 k + r) y0 = (r, y0 + k) := by
  induction k with
  | zero =>
    intro y0 r h1 h2
    rw [Nat.add_zero] at h2 ⊢
    simp only [sumYearDays, Nat.zero_add]
    rw [yearLoop]
    rw [if_neg (by omega)]
  | succ n ih =>
    intro y0 r h1 h2
    rw [sumYearDays, yearLoop]
    rw [if_pos (by omega)]
    have hsub : daysInYear y0 + sumYearDays (y0 + 1) n + r - daysInYear y0
        = sumYearDays (y0 + 1) n + r := by omega
    rw [hsub]
    have hidx : y0 + 1 + n = y0 + (n + 1) := by omega
    have hr := ih (y0 + 1) r h1 (by rw [hidx]; exact h2)
    rw [hr, hidx]

/-- Advancing the month loop over `k` whole months, analogously. -/
theorem monthLoop_advance (y : Nat) (k : Nat) :
    ∀ m0 r, 1 ≤ r → r ≤ get_last_date_in_month (m0 + k) y →
      monthLoop y (sumMonthDays y m0 k + r) m0 = (r, m0 + k) := by
  induction k with
  | zero =>
    intro m0 r h1 h2
    rw [Nat.add_zero] at h2 ⊢
    simp only [sumMonthDays, Nat.zero_add]
    rw [monthLoop]
    rw [if_neg (by omega)]
  | succ n ih =>
    intro m0 r h1 h2
    rw [sumMonthDays, monthLoop]
    rw [if_pos (by omega)]
    have hsub : get_last_date_in_month m0 y + sumMonthDays y (m0 + 1) n + r
        - get_last_date_in_month m0 y = sumMonthDays y (m0 + 1) n + r := by
      omega
    rw [hsub]
    have hidx : m0 + 1 + n = m0 + (n + 1) := by omega
    have hr := ih (m0 + 1) r h1 (by rw [hidx]; exact h2)
    rw [hr, hidx]

/-- Any date that satisfies the construction invariant has a day total
that fits inside its own year. -/
theorem month_day_fits (t : DateTuple) (hm : t.m ≤ 11)
    (hd : t.d ≤ get_last_date_in_month t.m t.y) :
    sumMonthDays t.y 0 t.m + t.d ≤ daysInYear t.y := by
  have h1 : sumMonthDays t.y 0 t.m + t.d ≤ sumMonthDays t.y 0 (t.m + 1) := by
    rw [sumMonthDays_succ_right]
    simp only [Nat.zero_add]
    omega
  have h2 : sumMonthDays t.y 0 (t.m + 1) ≤ sumMonthDays t.y 0 12 :=
    sumMonthDays_le _ _ _ (by omega)
  rw [sumMonthDays_year] at h2
  omega

/-- `from_days` inverts `to_days` on every date satisfying the
construction invariant. -/
theorem from_days_to_days (t : DateTuple) (hv : t.valid) :
    DateTuple.from_days (DateTuple.to_days t) = .ok t := by
  obtain ⟨hy, hm, hd1, hd2⟩ := hv
  unfold DateTuple.from_days DateTuple.to_days
  have hyl : yearLoop (sumYearDays 0 t.y + sumMonthDays t.y 0 t.m + t.d) 0
      = (sumMonthDays t.y 0 t.m + t.d, t.y) := by
    have := yearLoop_advance t.y 0 (sumMonthDays t.y 0 t.m + t.d)
      (by omega)
      (by simpa using month_day_fits t hm hd2)
    simpa [Nat.add_assoc] using this
  rw [hyl]
  have hml : monthLoop t.y (sumMonthDays t.y 0 t.m + t.d) 0 = (t.d, t.m) := by
    have := monthLoop_advance t.y t.m 0 t.d (by omega) (by simpa using hd2)
    simpa using this
  simp only [hml]
  show DateTuple.new t.y t.m (t.d % 256) = .ok t
  have hdsmall : t.d % 256 = t.d := by
    have := lastDate_le t.m t.y
    omega
  rw [hdsmall]
  unfold DateTuple.new
  rw [if_neg (by omega), if_pos hm, if_neg (by omega)]

/-- From src/date_tuple.rs `DateTuple::next_date`: the immediately
following date, saturating at 31 Dec 9999. -/
def DateTuple.next_date (t : DateTuple) : DateTuple :=
  if t.y = 9999 ∧ t.m = 11 ∧ t.d = 31 then t
  else if t.d = get_last_date_in_month t.m t.y then
    if t.m = 11 then ⟨t.y + 1, 0, 1⟩ else ⟨t.y, t.m + 1, 1⟩
  else ⟨t.y, t.m, t.d + 1⟩

theorem lastDate_11 (y : Nat) : get_last_date_in_month 11 y = 31 := rfl

theorem lastDate_0 (y : Nat) : get_last_date_in_month 0 y = 31 := rfl

/-- The eleven months January to November of `y` plus December's 31 days
make up the whole year. -/
theorem sumMonthDays_11 (y : Nat) : sumMonthDays y 0 11 + 31 = daysInYear y := by
  have h12 := sumMonthDays_year y
  rw [show (12 : Nat) = 11 + 1 from rfl, sumMonthDays_succ_right,
    Nat.zero_add, lastDate_11] at h12
  exact h12

/-- Stepping to the next date adds exactly one to the day count and
preserves validity (away from the saturation point 31 Dec 9999). -/
theorem next_date_step (t : DateTuple) (hv : t.valid)
    (hne : t ≠ ⟨9999, 11, 31⟩) :
    t.next_date.valid ∧ t.next_date.to_days = t.to_days + 1 := by
  obtain ⟨hy, hm, hd1, hd2⟩ := hv
  have hnmax : ¬(t.y = 9999 ∧ t.m = 11 ∧ t.d = 31) := by
    intro ⟨h1, h2, h3⟩
    exact hne (by cases t; simp_all)
  unfold DateTuple.next_date
  rw [if_neg hnmax]
  by_cases hlast : t.d = get_last_date_in_month t.m t.y
  · rw [if_pos hlast]
    by_cases hdec : t.m = 11
    · rw [if_pos hdec]
      have hy9 : t.y ≠ 9999 := by
        intro hc
        exact hnmax ⟨hc, hdec, by rw [hlast, hdec, lastDate_11]⟩
      constructor
      · rw [valid_mk, lastDate_0]
        omega
      · rw [to_days_mk, to_days_eq]
        simp only [sumMonthDays]
        rw [sumYearDays_succ_right, Nat.zero_add]
        have ht : t.d = 31 := by rw [hlast, hdec, lastDate_11]
        have h11 := sumMonthDays_11 t.y
        rw [hdec, ht]
        omega
    · rw [if_neg hdec]
      constructor
      · rw [valid_mk]
        have := lastDate_ge (t.m + 1) t.y
        omega
      · rw [to_days_mk, to_days_eq]
        rw [sumMonthDays_succ_right, Nat.zero_add]
        omega
  · rw [if_neg hlast]
    constructor
    · rw [valid_mk]
      omega
    · rw [to_days_mk, to_days_eq]
      omega

/-- Every day count between 1 and the count of 31 Dec 9999 is realised
by a valid date. -/
theorem to_days_surj (n : Nat) (h1 : 1 ≤ n) (h2 : n ≤ 3652425) :
    ∃ t : DateTuple, t.valid ∧ t.to_days = n := by
  induction n with
  | zero => omega
  | succ k ih =>
    by_cases hk : k = 0
    · subst hk
      exact ⟨⟨0, 0, 1⟩, by decide, to_days_min⟩
    · obtain ⟨t, hv, ht⟩ := ih (by omega) (by omega)
      have hne : t ≠ ⟨9999, 11, 31⟩ := by
        intro hc
        rw [hc, to_days_max] at ht
        omega
      obtain ⟨hv', hstep⟩ := next_date_step t hv hne
      exact ⟨t.next_date, hv', by omega⟩

/-- The year counter of `yearLoop` never decreases. -/
theorem yearLoop_years_le (td : Nat) :
    ∀ y0, y0 ≤ (yearLoop td y0).2 := by
  induction td using Nat.strong_induction_on with
  | _ td ih =>
    intro y0
    rw [yearLoop]
    split
    · rename_i h
      have hpos := daysInYear_pos y0
      have := ih (td - daysInYear y0) (by omega) (y0 + 1)
      omega
    · simp

/-- If more days remain than `k` whole years starting at `y0` can hold,
the year loop runs at least `k` more iterations. -/
theorem yearLoop_years_ge (k : Nat) :
    ∀ y0 td, sumYearDays y0 k < td → y0 + k ≤ (yearLoop td y0).2 := by
  induction k with
  | zero =>
    intro y0 td h
    have := yearLoop_years_le td y0
    omega
  | succ n ih =>
    intro y0 td h
    have hu : sumYearDays y0 (n + 1)
        = daysInYear y0 + sumYearDays (y0 + 1) n := rfl
    rw [yearLoop, if_pos (by omega)]
    have := ih (y0 + 1) (td - daysInYear y0) (by omega)
    omega

/-- `DateTuple::new` yields an error whenever the year exceeds 9999,
whatever the other components are. -/
theorem new_year_too_large (y m d : Nat) (h : 9999 < y) :
    DateTuple.new y m d = .error (DateTuple.msgYear ⟨y, m, d⟩) := by
  unfold DateTuple.new
  rw [if_pos h]

/-- `from_days 0` is rejected: the day counter starts at 1. -/
theorem from_days_zero :
    DateTuple.from_days 0 = .error (DateTuple.msgDate ⟨0, 0, 0⟩) := by
  have hy : yearLoop 0 0 = (0, 0) := by
    rw [yearLoop, if_neg (Nat.not_lt_zero _)]
  simp only [DateTuple.from_days, hy]
  have hm : monthLoop 0 0 0 = (0, 0) := by
    rw [monthLoop, if_neg (Nat.not_lt_zero _)]
  simp only [hm]
  rfl

/-- Day counts beyond 31 Dec 9999 push the year loop past year 9999 and
are rejected by the final `DateTuple::new` call. -/
theorem from_days_too_large (n : Nat) (h : 3652425 < n) (t : DateTuple) :
    DateTuple.from_days n ≠ .ok t := by
  have hge : 10000 ≤ (yearLoop n 0).2 := by
    have := yearLoop_years_ge 10000 0 n (by rw [sumYearDays_0_10000]; omega)
    omega
  simp only [DateTuple.from_days]
  rw [new_year_too_large _ _ _ (by omega)]
  simp

/-- C8: `from_days(total_days)` succeeds exactly on the day counts of
representable dates: it returns Ok for every count between that of
0000-01-01 and that of 9999-12-31, and an error outside that range. -/
theorem from_days_ok_iff (n : Nat) :
    (∃ t : DateTuple, DateTuple.from_days n = .ok t)
      ↔ (DateTuple.to_days ⟨0, 0, 1⟩ ≤ n
          ∧ n ≤ DateTuple.to_days ⟨9999, 11, 31⟩) := by
  rw [to_days_min, to_days_max]
  constructor
  · intro ⟨t, ht⟩
    refine ⟨?_, ?_⟩
    · by_contra hc
      have hn : n = 0 := by omega
      rw [hn, from_days_zero] at ht
      exact absurd ht (by simp)
    · by_contra hc
      exact absurd ht (from_days_too_large n (by omega) t)
  · intro ⟨h1, h2⟩
    obtain ⟨t, hv, htd⟩ := to_days_surj n h1 h2
    exact ⟨t, by rw [← htd]; exact from_days_to_days t hv⟩

/-- C3: the day-count epoch convention: `to_days` of 29 February 2000
(stored as zero-based month 1) is 730545, and `from_days` maps 730545
back to that date. -/
theorem epoch_730545 :
    DateTuple.to_days ⟨2000, 1, 29⟩ = 730545
      ∧ DateTuple.from_days 730545 = .ok ⟨2000, 1, 29⟩ := by
  refine ⟨to_days_feb_29_2000, ?_⟩
  rw [← to_days_feb_29_2000]
  exact from_days_to_days _ (by decide)

/-- From src/month_tuple.rs: a month of a specific year; `m` is
zero-based (zero is January). -/
structure MonthTuple where
  y : Nat
  m : Nat
deriving DecidableEq

/-- Rust's `{:?}` (Debug) rendering of a `MonthTuple`, used inside the
error strings of `MonthTuple::new`. -/
def MonthTuple.dbg (t : MonthTuple) : String :=
  "MonthTuple \x7b y: " ++ toString t.y ++ ", m: " ++ toString t.m ++ " \x7d"

/-- Error string of the `year > 9999` branch of `MonthTuple::new`. -/
def MonthTuple.msgYear (t : MonthTuple) : String :=
  "Invalid year in MonthTuple: " ++ t.dbg ++ "\nYear must be <= 9999."

/-- Error string of the invalid-month branch of `MonthTuple::new`. -/
def MonthTuple.msgMonth (t : MonthTuple) : String :=
  "Invalid month in MonthTuple: " ++ t.dbg
    ++ "\nMonth must be <= 11; Note that months are ZERO-BASED."

/-- From src/month_tuple.rs `MonthTuple::new`: validated constructor,
zero-based month (`m <= 11`). -/
def MonthTuple.new (y m : Nat) : Except String MonthTuple :=
  if m ≤ 11 then
    if y ≤ 9999 then .ok ⟨y, m⟩
    else .error (MonthTuple.msgYear ⟨y, m⟩)
  else .error (MonthTuple.msgMonth ⟨y, m⟩)

theorem string_data_append (a b : String) :
    (a ++ b).data = a.data ++ b.data := rfl

/-- C1 (amended): construction is validated against the zero-based
convention uniformly: `DateTuple::new(y, m, d)` succeeds exactly when
`y <= 9999`, `m` is in `0..=11` and `d` is in
`1..=get_last_date_in_month(m, y)`; `MonthTuple::new(y, m)` succeeds
exactly when `m` is in `0..=11` and `y <= 9999`; and every error string
carries the offending tuple (its Debug rendering occurs inside the
message). -/
theorem new_validates_zero_based :
    (∀ y m d : Nat,
      ((∃ t, DateTuple.new y m d = .ok t)
        ↔ (y ≤ 9999 ∧ m ≤ 11 ∧ 1 ≤ d ∧ d ≤ get_last_date_in_month m y))
      ∧ (∀ e, DateTuple.new y m d = .error e →
          ∃ pre suf,
            e.data = pre ++ (DateTuple.dbg ⟨y, m, d⟩).data ++ suf))
    ∧ (∀ y m : Nat,
      ((∃ t, MonthTuple.new y m = .ok t) ↔ (m ≤ 11 ∧ y ≤ 9999))
      ∧ (∀ e, MonthTuple.new y m = .error e →
          ∃ pre suf,
            e.data = pre ++ (MonthTuple.dbg ⟨y, m⟩).data ++ suf)) := by
  constructor
  · intro y m d
    constructor
    · unfold DateTuple.new
      split
      · rename_i h
        simp
        omega
      · rename_i h
        split
        · rename_i h2
          split
          · rename_i h3
            simp
            omega
          · rename_i h3
            simp
            omega
        · rename_i h2
          simp
          omega
    · intro e he
      unfold DateTuple.new at he
      split at he
      · rw [Except.error.injEq] at he
        subst he
        exact ⟨("Invalid year in DateTuple " : String).data,
          (": year must be <= 9999." : String).data,
          by simp [DateTuple.msgYear, string_data_append]⟩
      · split at he
        · split at he
          · rw [Except.error.injEq] at he
            subst he
            exact ⟨("Invalid date in DateTuple: " : String).data, [],
              by simp [DateTuple.msgDate, string_data_append]⟩
          · exact absurd he (by simp)
        · rw [Except.error.injEq] at he
          subst he
          exact ⟨("Invalid month in DateTuple: " : String).data,
            ("\nMonth must be <= 11; Note that months are ZERO-BASED."
              : String).data,
            by simp [DateTuple.msgMonth, string_data_append]⟩
  · intro y m
    constructor
    · unfold MonthTuple.new
      split
      · rename_i h
        split
        · rename_i h2
          simp
          omega
        · rename_i h2
          simp
          omega
      · rename_i h
        simp
        omega
    · intro e he
      unfold MonthTuple.new at he
      split at he
      · split at he
        · exact absurd he (by simp)
        · rw [Except.error.injEq] at he
          subst he
          exact ⟨("Invalid year in MonthTuple: " : String).data,
            ("\nYear must be <= 9999." : String).data,
            by simp [MonthTuple.msgYear, string_data_append]⟩
      · rw [Except.error.injEq] at he
        subst he
        exact ⟨("Invalid month in MonthTuple: " : String).data,
          ("\nMonth must be <= 11; Note that months are ZERO-BASED."
            : String).data,
          by simp [MonthTuple.msgMonth, string_data_append]⟩

/-- Modelled from the spec: the one-based month-length table of §4.1
(`last_day_in_month(month, year)` for months 1..=12), used only to state
the one-based convention the spec asserts. -/
def last_day_in_month_one_based (month year : Nat) : Nat :=
  match month with
  | 2 => if is_leap_year year then 29 else 28
  | 1 | 3 | 5 | 7 | 8 | 10 | 12 => 31
  | _ => 30

/-- C1 counterexample: month 12 with a valid one-based day is rejected by
the code, and month 0 is accepted, so construction does not follow the
claimed one-based `1..=12` convention. -/
theorem new_not_one_based :
    DateTuple.new 2000 12 5 = .error (DateTuple.msgMonth ⟨2000, 12, 5⟩)
    ∧ (2000 ≤ 9999 ∧ 1 ≤ 12 ∧ 12 ≤ 12 ∧ 1 ≤ 5
        ∧ 5 ≤ last_day_in_month_one_based 12 2000)
    ∧ DateTuple.new 2000 0 1 = .ok ⟨2000, 0, 1⟩ :=
  ⟨rfl, by decide, rfl⟩

/-- Rust's `{:04}` formatting of a value known to be at most four decimal
digits (every year stored in a tuple is `<= 9999`, so the zero-padded
width-4 rendering is exactly its four decimal digits). -/
def pad4 (n : Nat) : String :=
  ⟨[Nat.digitChar (n / 1000 % 10), Nat.digitChar (n / 100 % 10),
    Nat.digitChar (n / 10 % 10), Nat.digitChar (n % 10)]⟩

/-- Rust's `{:02}` formatting of a value known to be at most two decimal
digits (stored months are `<= 11` and days `<= 31`). -/
def pad2 (n : Nat) : String :=
  ⟨[Nat.digitChar (n / 10 % 10), Nat.digitChar (n % 10)]⟩

/-- From src/date_tuple.rs `impl fmt::Display for DateTuple`:
`"{:04}-{:02}-{:02}"` over the stored (zero-based-month) fields. -/
def DateTuple.toStorageString (t : DateTuple) : String :=
  pad4 t.y ++ "-" ++ pad2 t.m ++ "-" ++ pad2 t.d

/-- From src/month_tuple.rs `impl fmt::Display for MonthTuple`:
`"{:04}{:02}"` — six digits, no separator. -/
def MonthTuple.toStorageString (t : MonthTuple) : String :=
  pad4 t.y ++ pad2 t.m

/-- The regex `^\d{4}-\d{2}-\d{2}$` of `DateTuple::from_str`. -/
def validDateFmt (s : String) : Bool :=
  match s.data with
  | [a, b, c, d, e, f, g, h, i, j] =>
    a.isDigit && b.isDigit && c.isDigit && d.isDigit && (e == '-')
      && f.isDigit && g.isDigit && (h == '-') && i.isDigit && j.isDigit
  | _ => false

/-- The regex `^\d{8}$` of `DateTuple::from_str` (legacy format). -/
def legacyDateFmt (s : String) : Bool :=
  match s.data with
  | [a, b, c, d, e, f, g, h] =>
    a.isDigit && b.isDigit && c.isDigit && d.isDigit
      && e.isDigit && f.isDigit && g.isDigit && h.isDigit
  | _ => false

/-- The regex `^\d{4}-\d{2}$` of `MonthTuple::from_str`. -/
def validMonthFmt (s : String) : Bool :=
  match s.data with
  | [a, b, c, d, e, f, g] =>
    a.isDigit && b.isDigit && c.isDigit && d.isDigit && (e == '-')
      && f.isDigit && g.isDigit
  | _ => false

/-- The regex `^\d{6}$` of `MonthTuple::from_str` (legacy format). -/
def legacyMonthFmt (s : String) : Bool :=
  match s.data with
  | [a, b, c, d, e, f] =>
    a.isDigit && b.isDigit && c.isDigit && d.isDigit && e.isDigit && f.isDigit
  | _ => false

/-- Rust's `&s[i..j]` byte slicing; the parsers only slice strings the
format regexes have checked to be pure ASCII digits and separators, where
byte and character indexing coincide. -/
def slice (s : String) (i j : Nat) : String :=
  ⟨(s.data.drop i).take (j - i)⟩

/-- Decimal interpretation of a digit string, as `u16::from_str` /
`u8::from_str` compute it on the regex-checked all-digit slices (on
which they cannot fail: four digits are at most 9999 < 65536 and two
digits at most 99 < 256). -/
def strToNat (s : String) : Nat :=
  s.data.foldl (fun acc c => acc * 10 + (c.toNat - 48)) 0

/-- From src/date_tuple.rs `impl FromStr for DateTuple`. -/
def DateTuple.from_str (s : String) : Except String DateTuple :=
  if validDateFmt s then
    match DateTuple.new (strToNat (slice s 0 4)) (strToNat (slice s 5 7))
        (strToNat (slice s 8 10)) with
    | .ok d => .ok d
    | .error e => .error ("Invalid date passed to from_str: " ++ e)
  else if legacyDateFmt s then
    match DateTuple.new (strToNat (slice s 0 4)) (strToNat (slice s 4 6))
        (strToNat (slice s 6 8)) with
    | .ok d => .ok d
    | .error e => .error ("Invalid date passed to from_str: " ++ e)
  else
    .error ("Invalid str formatting of DateTuple: " ++ s
      ++ "\nExpects a string formatted like 2018-11-02.")

/-- From src/month_tuple.rs `impl FromStr for MonthTuple`. -/
def MonthTuple.from_str (s : String) : Except String MonthTuple :=
  if validMonthFmt s then
    match MonthTuple.new (strToNat (slice s 0 4)) (strToNat (slice s 5 7)) with
    | .ok m => .ok m
    | .error e => .error ("Invalid month passed to from_str: " ++ e)
  else if legacyMonthFmt s then
    match MonthTuple.new (strToNat (slice s 0 4)) (strToNat (slice s 4 6)) with
    | .ok m => .ok m
    | .error e => .error ("Invalid month passed to from_str: " ++ e)
  else
    .error ("Invalid str formatting of MonthTuple: " ++ s
      ++ "\nExpects a string formatted like 201811")

theorem mk_data (l : List Char) : (String.mk l).data = l := rfl

theorem isDigit_digitChar_mod (n : Nat) :
    (Nat.digitChar (n % 10)).isDigit = true := by
  have hb : ∀ v, v < 10 → (Nat.digitChar v).isDigit = true := by decide
  exact hb _ (Nat.mod_lt _ (by omega))

theorem toNat_digitChar_mod (n : Nat) :
    (Nat.digitChar (n % 10)).toNat = n % 10 + 48 := by
  have hb : ∀ v, v < 10 → (Nat.digitChar v).toNat = v + 48 := by decide
  exact hb _ (Nat.mod_lt _ (by omega))

theorem date_toStorageString_data (t : DateTuple) :
    (DateTuple.toStorageString t).data
      = [Nat.digitChar (t.y / 1000 % 10), Nat.digitChar (t.y / 100 % 10),
        Nat.digitChar (t.y / 10 % 10), Nat.digitChar (t.y % 10), '-',
        Nat.digitChar (t.m / 10 % 10), Nat.digitChar (t.m % 10), '-',
        Nat.digitChar (t.d / 10 % 10), Nat.digitChar (t.d % 10)] := by
  simp [DateTuple.toStorageString, pad4, pad2, string_data_append, mk_data]

theorem month_toStorageString_data (t : MonthTuple) :
    (MonthTuple.toStorageString t).data
      = [Nat.digitChar (t.y / 1000 % 10), Nat.digitChar (t.y / 100 % 10),
        Nat.digitChar (t.y / 10 % 10), Nat.digitChar (t.y % 10),
        Nat.digitChar (t.m / 10 % 10), Nat.digitChar (t.m % 10)] := by
  simp [MonthTuple.toStorageString, pad4, pad2, string_data_append, mk_data]

/-- Reassembling a number of at most four digits from its zero-padded
decimal rendering. -/
theorem strToNat_pad4 (n : Nat) (h : n ≤ 9999) :
    strToNat (pad4 n) = n := by
  simp only [strToNat, pad4, mk_data, List.foldl, toNat_digitChar_mod]
  omega

theorem strToNat_pad2 (n : Nat) (h : n ≤ 99) :
    strToNat (pad2 n) = n := by
  simp only [strToNat, pad2, mk_data, List.foldl, toNat_digitChar_mod]
  omega

/-- C4: string round-trip for dates: parsing the canonical zero-padded
`YYYY-MM-DD` Display form of any valid date returns that same date. -/
theorem date_string_round_trip (t : DateTuple) (hv : t.valid) :
    DateTuple.from_str (DateTuple.toStorageString t) = .ok t := by
  obtain ⟨hy, hm, hd1, hd2⟩ := hv
  have hd31 : t.d ≤ 31 := le_trans hd2 (lastDate_le t.m t.y)
  have hdata := date_toStorageString_data t
  unfold DateTuple.from_str
  rw [if_pos ?hfmt]
  case hfmt =>
    unfold validDateFmt
    rw [hdata]
    simp [isDigit_digitChar_mod]
  have h1 : strToNat (slice (DateTuple.toStorageString t) 0 4) = t.y := by
    unfold slice
    rw [hdata]
    simp only [List.drop, List.take]
    show strToNat (pad4 t.y) = t.y
    exact strToNat_pad4 t.y hy
  have h2 : strToNat (slice (DateTuple.toStorageString t) 5 7) = t.m := by
    unfold slice
    rw [hdata]
    simp only [List.drop, List.take]
    show strToNat (pad2 t.m) = t.m
    exact strToNat_pad2 t.m (by omega)
  have h3 : strToNat (slice (DateTuple.toStorageString t) 8 10) = t.d := by
    unfold slice
    rw [hdata]
    simp only [List.drop, List.take]
    show strToNat (pad2 t.d) = t.d
    exact strToNat_pad2 t.d (by omega)
  rw [h1, h2, h3]
  have hnew : DateTuple.new t.y t.m t.d = .ok t := by
    unfold DateTuple.new
    rw [if_neg (by omega), if_pos hm, if_neg (by omega)]
  rw [hnew]

/-- C4 witness: the round trip at the concrete date 2000-05-10. -/
theorem date_string_round_trip_witness :
    DateTuple.from_str (DateTuple.toStorageString ⟨2000, 5, 10⟩)
      = .ok ⟨2000, 5, 10⟩ :=
  date_string_round_trip ⟨2000, 5, 10⟩ (by decide)

/-- C9 counterexample: the storage string of a valid month is the
six-digit juxtaposition, not the hyphenated `YYYY-MM` form the claim
asserts. -/
theorem month_display_not_hyphenated :
    MonthTuple.toStorageString ⟨2000, 5⟩ = "200005"
    ∧ MonthTuple.toStorageString ⟨2000, 5⟩ ≠ pad4 2000 ++ "-" ++ pad2 5 := by
  decide

/-- C9 (amended): the storage string produced by `MonthTuple`'s Display
implementation has the form `YYYYMM`: exactly six characters, all decimal
digits, the first four decoding to the zero-padded year and the last two
to the zero-padded (zero-based) month — with no hyphen between them. -/
theorem month_display_form (t : MonthTuple) (hy : t.y ≤ 9999)
    (hm : t.m ≤ 11) :
    (MonthTuple.toStorageString t).data.length = 6
    ∧ (∀ c ∈ (MonthTuple.toStorageString t).data, c.isDigit = true)
    ∧ strToNat ⟨(MonthTuple.toStorageString t).data.take 4⟩ = t.y
    ∧ strToNat ⟨(MonthTuple.toStorageString t).data.drop 4⟩ = t.m := by
  have hdata := month_toStorageString_data t
  rw [hdata]
  refine ⟨rfl, ?_, ?_, ?_⟩
  · intro c hc
    simp only [List.mem_cons, List.not_mem_nil, or_false] at hc
    rcases hc with h | h | h | h | h | h <;>
      (subst h; exact isDigit_digitChar_mod _)
  · show strToNat (pad4 t.y) = t.y
    exact strToNat_pad4 t.y hy
  · show strToNat (pad2 t.m) = t.m
    exact strToNat_pad2 t.m (by omega)

/-- C9 witness: the Display form of May (zero-based month 5) 2000 has
six characters. -/
theorem month_display_form_witness :
    (MonthTuple.toStorageString ⟨2000, 5⟩).data.length = 6 :=
  (month_display_form ⟨2000, 5⟩ (by decide) (by decide)).1

/-- C10: parsing the string emitted by a valid `MonthTuple`'s Display
implementation returns the same value; the emitted six-digit `YYYYMM`
string fails the hyphenated-format regex and is accepted through the
legacy-format branch. -/
theorem month_string_round_trip (t : MonthTuple) (hy : t.y ≤ 9999)
    (hm : t.m ≤ 11) :
    MonthTuple.from_str (MonthTuple.toStorageString t) = .ok t
    ∧ validMonthFmt (MonthTuple.toStorageString t) = false := by
  have hdata := month_toStorageString_data t
  have hvalid : validMonthFmt (MonthTuple.toStorageString t) = false := by
    unfold validMonthFmt
    rw [hdata]
  refine ⟨?_, hvalid⟩
  have hvne : ¬ validMonthFmt (MonthTuple.toStorageString t) = true := by
    rw [hvalid]
    simp
  have hleg : legacyMonthFmt (MonthTuple.toStorageString t) = true := by
    unfold legacyMonthFmt
    rw [hdata]
    simp [isDigit_digitChar_mod]
  unfold MonthTuple.from_str
  rw [if_neg hvne, if_pos hleg]
  have h1 : strToNat (slice (MonthTuple.toStorageString t) 0 4) = t.y := by
    unfold slice
    rw [hdata]
    simp only [List.drop, List.take]
    show strToNat (pad4 t.y) = t.y
    exact strToNat_pad4 t.y hy
  have h2 : strToNat (slice (MonthTuple.toStorageString t) 4 6) = t.m := by
    unfold slice
    rw [hdata]
    simp only [List.drop, List.take]
    show strToNat (pad2 t.m) = t.m
    exact strToNat_pad2 t.m (by omega)
  rw [h1, h2]
  have hnew : MonthTuple.new t.y t.m = .ok t := by
    unfold MonthTuple.new
    rw [if_pos hm, if_pos hy]
  rw [hnew]

/-- C10 witness: the Month round trip at the concrete value 2000-05
(zero-based month 5). -/
theorem month_string_round_trip_witness :
    MonthTuple.from_str (MonthTuple.toStorageString ⟨2000, 5⟩)
      = .ok ⟨2000, 5⟩ :=
  (month_string_round_trip ⟨2000, 5⟩ (by decide) (by decide)).1

/-- From src/time_tuple.rs: a time of day as hours, minutes, seconds
(all u8 in the source; always below 24/60/60 when built by the
constructors). -/
structure TimeTuple where
  h : Nat
  m : Nat
  s : Nat
deriving DecidableEq

/-- The `while total_seconds < 0 { total_seconds += 86400 }` loop of
`TimeTuple::new`. -/
def wrapLoop (t : Int) : Int :=
  if t < 0 then wrapLoop (t + 86400) else t
termination_by (-t).toNat
decreasing_by
  omega

/-- The `while total_seconds >= 86400 { total_seconds -= 86400 }` loop of
`TimeTuple::from_seconds`. -/
def secondsWrap (t : Nat) : Nat :=
  if 86400 ≤ t then secondsWrap (t - 86400) else t
termination_by t
decreasing_by
  omega

/-- From src/time_tuple.rs `TimeTuple::from_seconds`: wraps below 86400
seconds and decomposes into hours / minutes / seconds. The `% 256`
mirror the `as u8` casts (no-ops on the wrapped values). -/
def TimeTuple.from_seconds (total : Nat) : TimeTuple :=
  let t := secondsWrap total
  let h := t / 3600
  let t2 := t - h * 3600
  let m := t2 / 60
  ⟨h % 256, m % 256, (t2 - m * 60) % 256⟩

/-- Two's-complement wrap of an integer into the i32 range
`[-2^31, 2^31)`: the release-mode value of an overflowing i32
computation (debug builds panic instead). Wrapping i32 addition and
multiplication are the ring operations modulo `2^32`, so wrapping the
exact value of `s + 60*m + 3600*h` once equals the stepwise wrapped
evaluation the compiled code performs. -/
def i32_wrap (n : Int) : Int :=
  (n + 2147483648) % 4294967296 - 2147483648

/-- From src/time_tuple.rs `TimeTuple::new`: the i32 total signed
seconds `s + 60*m + 3600*h` (wrapping on overflow, see `i32_wrap`),
brought nonnegative by repeated `+86400`, then decomposed by
`from_seconds`. The loop itself cannot overflow: it adds 86400 only to
negative values. -/
def TimeTuple.new (h m s : Int) : TimeTuple :=
  TimeTuple.from_seconds (wrapLoop (i32_wrap (s + 60 * m + 3600 * h))).toNat

/-- From src/time_tuple.rs `TimeTuple::to_seconds`. -/
def TimeTuple.to_seconds (t : TimeTuple) : Nat :=
  3600 * t.h + 60 * t.m + t.s

theorem secondsWrap_eq (t : Nat) : secondsWrap t = t % 86400 := by
  induction t using Nat.strong_induction_on with
  | _ t ih =>
    rw [secondsWrap]
    split
    · rename_i h
      rw [ih (t - 86400) (by omega)]
      omega
    · rename_i h
      omega

theorem wrapLoop_neg (k : Nat) :
    ∀ t : Int, t < 0 → (-t).toNat ≤ k → wrapLoop t = t % 86400 := by
  induction k with
  | zero =>
    intro t ht hk
    exact absurd hk (by omega)
  | succ n ih =>
    intro t ht hk
    rw [wrapLoop, if_pos ht]
    rcases Int.lt_or_le (t + 86400) 0 with h2 | h2
    · rw [ih (t + 86400) h2 (by omega)]
      omega
    · rw [wrapLoop, if_neg (by omega)]
      omega

theorem wrapLoop_eq (t : Int) :
    wrapLoop t = if t < 0 then t % 86400 else t := by
  by_cases h : t < 0
  · rw [if_pos h]
    exact wrapLoop_neg (-t).toNat t h (Nat.le_refl _)
  · rw [wrapLoop, if_neg h, if_neg h]

/-- Characterisation of `TimeTuple::from_seconds`: plain modular
decomposition of the input. -/
theorem from_seconds_eq (n : Nat) :
    TimeTuple.from_seconds n
      = ⟨n % 86400 / 3600, n % 86400 % 3600 / 60, n % 86400 % 60⟩ := by
  simp only [TimeTuple.from_seconds, secondsWrap_eq, TimeTuple.mk.injEq]
  refine ⟨?_, ?_, ?_⟩ <;> omega

/-- Full characterisation of `TimeTuple::new`: the components are the
decomposition of the i32-wrapped total signed seconds reduced modulo
86400. -/
theorem timeTuple_new_eq (h m s : Int) :
    TimeTuple.new h m s
      = ⟨(i32_wrap (s + 60 * m + 3600 * h) % 86400).toNat / 3600,
        (i32_wrap (s + 60 * m + 3600 * h) % 86400).toNat % 3600 / 60,
        (i32_wrap (s + 60 * m + 3600 * h) % 86400).toNat % 60⟩ := by
  unfold TimeTuple.new
  rw [wrapLoop_eq]
  set T := i32_wrap (s + 60 * m + 3600 * h) with hT
  split
  · rename_i hneg
    rw [from_seconds_eq]
    simp only [TimeTuple.mk.injEq]
    refine ⟨?_, ?_, ?_⟩ <;> omega
  · rename_i hnn
    rw [from_seconds_eq]
    simp only [TimeTuple.mk.injEq]
    refine ⟨?_, ?_, ?_⟩ <;> omega

/-- The i32 wrap is the identity on values already inside the i32
range. -/
theorem i32_wrap_eq_self (n : Int) (h1 : -2147483648 ≤ n)
    (h2 : n < 2147483648) : i32_wrap n = n := by
  unfold i32_wrap
  omega

/-- C5 counterexample: at the public input `(600000, 0, 0)` the i32
product `3600 * 600000` exceeds `i32::MAX` (debug builds panic on the
overflow), and the release-mode wrapped result 17:31:44 differs from
the decomposition of the true total `s + 60*m + 3600*h`, which is
midnight — so the constructor does not compute that total for all
signed inputs. -/
theorem time_of_day_i32_overflow :
    TimeTuple.new 600000 0 0 = ⟨17, 31, 44⟩
    ∧ ((((0 : Int) + 60 * 0 + 3600 * 600000) % 86400).toNat = 0
        ∧ TimeTuple.new 600000 0 0 ≠ ⟨0, 0, 0⟩)
    ∧ (2147483648 : Int) ≤ 3600 * 600000 := by
  refine ⟨?_, ⟨by decide, ?_⟩, by decide⟩
  · rw [timeTuple_new_eq]
    decide
  · rw [timeTuple_new_eq]
    decide

/-- C5 (amended): the time-of-day constructor never fails in release
builds; whenever the evaluation of the i32 total `s + 60*m + 3600*h`
stays within the i32 range (every input and intermediate in
`[-2^31, 2^31)`), it computes that total, wraps it into `[0, 86400)`
and decomposes it back into in-range hour/minute/second components; in
particular `new 25 90 90 = new 2 31 30`, `new (-3) (-116) (-301)`
normalises to 18:58:59, and `from_seconds 86400` is midnight. -/
theorem time_of_day_wrapping :
    (∀ h m s : Int,
      -2147483648 ≤ s → s < 2147483648 →
      -2147483648 ≤ 60 * m → 60 * m < 2147483648 →
      -2147483648 ≤ 3600 * h → 3600 * h < 2147483648 →
      -2147483648 ≤ s + 60 * m → s + 60 * m < 2147483648 →
      -2147483648 ≤ s + 60 * m + 3600 * h →
      s + 60 * m + 3600 * h < 2147483648 →
      (TimeTuple.new h m s).to_seconds
          = ((s + 60 * m + 3600 * h) % 86400).toNat
        ∧ (TimeTuple.new h m s).h < 24
        ∧ (TimeTuple.new h m s).m < 60
        ∧ (TimeTuple.new h m s).s < 60)
    ∧ TimeTuple.new 25 90 90 = TimeTuple.new 2 31 30
    ∧ TimeTuple.new (-3) (-116) (-301) = ⟨18, 58, 59⟩
    ∧ TimeTuple.from_seconds 86400 = ⟨0, 0, 0⟩ := by
  refine ⟨?_, ?_, ?_, ?_⟩
  · intro h m s hs1 hs2 hm1 hm2 hh1 hh2 hsm1 hsm2 ht1 ht2
    rw [timeTuple_new_eq, i32_wrap_eq_self (s + 60 * m + 3600 * h) ht1 ht2]
    simp only [TimeTuple.to_seconds]
    refine ⟨?_, ?_, ?_, ?_⟩ <;> omega
  · rw [timeTuple_new_eq, timeTuple_new_eq]
    decide
  · rw [timeTuple_new_eq]
    decide
  · rw [from_seconds_eq]

/-- C5 witness: the wrapped total at the in-range input (2, 31, 30) is
9090 seconds. -/
theorem time_of_day_wrapping_witness :
    (TimeTuple.new 2 31 30).to_seconds = 9090 :=
  (time_of_day_wrapping.1 2 31 30 (by decide) (by decide) (by decide)
    (by decide) (by decide) (by decide) (by decide) (by decide)
    (by decide) (by decide)).1

/-- From src/time_tuple.rs: an elapsed duration; hours are a u32 (not
cyclic), minutes and seconds u8. -/
structure Duration where
  h : Nat
  m : Nat
  s : Nat
deriving DecidableEq

/-- Wrapping u32 subtraction, the release-mode meaning of `a - b` on
u32 operands (debug builds panic when `a < b`). -/
def u32_sub (a b : Nat) : Nat :=
  (a + (4294967296 - b % 4294967296)) % 4294967296

/-- Wrapping u8 subtraction, the release-mode meaning of `a - b` on
u8 operands. -/
def u8_sub (a b : Nat) : Nat :=
  (a + (256 - b % 256)) % 256

/-- From src/time_tuple.rs `Duration::from_seconds`: decomposes a u64
second count; `% 2^32` and `% 256` mirror the `as u32` / `as u8` casts. -/
def Duration.from_seconds (total : Nat) : Duration :=
  let h := total / 3600
  let t2 := total - h * 3600
  let m := t2 / 60
  ⟨h % 4294967296, m % 256, (t2 - m * 60) % 256⟩

/-- From src/time_tuple.rs `Duration::new`: the total
`s + 60*m + 3600*h` is computed in u32 (hence the `% 2^32`), then
widened to u64 and decomposed. -/
def Duration.new (h m s : Nat) : Duration :=
  Duration.from_seconds ((s + 60 * m + 3600 * h) % 4294967296)

/-- From src/time_tuple.rs `Duration::to_seconds` (u64 arithmetic). -/
def Duration.to_seconds (d : Duration) : Nat :=
  3600 * d.h + 60 * d.m + d.s

/-- From src/time_tuple.rs `Duration::subtract_seconds`:
`self.s as u32 - seconds`, then rebuilt through `Duration::new`. -/
def Duration.subtract_seconds (t : Duration) (seconds : Nat) : Duration :=
  Duration.new t.h t.m (u32_sub t.s seconds)

/-- From src/time_tuple.rs `Duration::subtract_minutes`. -/
def Duration.subtract_minutes (t : Duration) (minutes : Nat) : Duration :=
  Duration.new t.h (u32_sub t.m minutes) t.s

/-- From src/time_tuple.rs `Duration::subtract_hours`. -/
def Duration.subtract_hours (t : Duration) (hours : Nat) : Duration :=
  Duration.new (u32_sub t.h hours) t.m t.s

/-- From src/time_tuple.rs `impl Sub for Duration`: componentwise
subtraction (u32 on hours, u8 on minutes/seconds) fed into
`Duration::new`. -/
def Duration.sub (a b : Duration) : Duration :=
  Duration.new (u32_sub a.h b.h) (u8_sub a.m b.m) (u8_sub a.s b.s)

/-- C7: subtracting more than is present from a `Duration` is an
unchecked unsigned subtraction that underflows. At
`Duration(0,0,0).subtract_seconds(1)` the stored seconds are smaller
than the subtrahend (so the debug-mode panic branch of `-` is reached
from the public API), and the release-mode result wraps around to a huge
duration: it is neither saturated at zero nor an error value. The
minute/hour subtractions and the public `-` operator underflow the same
way. -/
theorem duration_subtract_underflows :
    ((Duration.new 0 0 0).s < 1
      ∧ Duration.subtract_seconds (Duration.new 0 0 0) 1 = ⟨1193046, 28, 15⟩
      ∧ Duration.subtract_seconds (Duration.new 0 0 0) 1 ≠ Duration.new 0 0 0
      ∧ (Duration.subtract_seconds (Duration.new 0 0 0) 1).to_seconds
          = 4294967295)
    ∧ ((Duration.new 0 0 0).m < 1
      ∧ Duration.subtract_minutes (Duration.new 0 0 0) 1 ≠ Duration.new 0 0 0)
    ∧ ((Duration.new 0 0 0).h < 1
      ∧ Duration.subtract_hours (Duration.new 0 0 0) 1 ≠ Duration.new 0 0 0)
    ∧ ((Duration.new 0 0 0).s < (Duration.new 0 0 1).s
      ∧ Duration.sub (Duration.new 0 0 0) (Duration.new 0 0 1)
          ≠ Duration.new 0 0 0) := by
  decide

/-- From src/date_time_tuple.rs: a date paired with a time of day. -/
structure DateTimeTuple where
  d : DateTuple
  t : TimeTuple
deriving DecidableEq

/-- From src/date_tuple.rs `impl Ord for DateTuple`: strict order,
lexicographic on year, then month, then day. -/
def DateTuple.ltP (a b : DateTuple) : Prop :=
  if a.y = b.y then
    (if a.m = b.m then a.d < b.d else a.m < b.m)
  else a.y < b.y

instance (a b : DateTuple) : Decidable (DateTuple.ltP a b) := by
  unfold DateTuple.ltP; infer_instance

/-- From src/date_time_tuple.rs `impl Ord for DateTimeTuple`: by date
first, then by time (times compare by their total seconds, as in
src/time_tuple.rs `impl Ord for TimeTuple`). -/
def DateTimeTuple.ltP (a b : DateTimeTuple) : Prop :=
  if a.d = b.d then a.t.to_seconds < b.t.to_seconds else DateTuple.ltP a.d b.d

instance (a b : DateTimeTuple) : Decidable (DateTimeTuple.ltP a b) := by
  unfold DateTimeTuple.ltP; infer_instance

/-- Modelled from the spec: the elapsed-seconds formula of
`Duration::between` for an already-ordered pair (§4.5): equal day counts
give the plain time difference; otherwise the partial day at each end
plus 86400 seconds per whole day in between. The implementation of
`Duration::between` is absent from the library sources (only the
integration tests call it). -/
def Duration.betweenOrdered (smaller greater : DateTimeTuple) : Duration :=
  if greater.d.to_days = smaller.d.to_days then
    Duration.from_seconds (greater.t.to_seconds - smaller.t.to_seconds)
  else
    Duration.from_seconds
      ((greater.t.to_seconds + 86400 - smaller.t.to_seconds)
        + 86400 * (greater.d.to_days - smaller.d.to_days - 1))

/-- Modelled from the spec: `Duration::between(dt1, dt2)` (§4.5):
order-independent elapsed time between two DateTimes; equal DateTimes
give the zero duration, otherwise the pair is ordered by the DateTime
ordering and the ordered formula applies. -/
def Duration.between (dt1 dt2 : DateTimeTuple) : Duration :=
  if dt1 = dt2 then Duration.new 0 0 0
  else if DateTimeTuple.ltP dt1 dt2 then Duration.betweenOrdered dt1 dt2
  else Duration.betweenOrdered dt2 dt1

theorem dt_eq_iff (x y : DateTuple) :
    x = y ↔ (x.y = y.y ∧ x.m = y.m ∧ x.d = y.d) := by
  cases x; cases y; simp

theorem dt_ltP_iff (a b : DateTuple) :
    DateTuple.ltP a b
      ↔ (a.y < b.y
          ∨ (a.y = b.y ∧ (a.m < b.m ∨ (a.m = b.m ∧ a.d < b.d)))) := by
  unfold DateTuple.ltP
  by_cases h1 : a.y = b.y
  · rw [if_pos h1]
    by_cases h2 : a.m = b.m
    · rw [if_pos h2]; omega
    · rw [if_neg h2]; omega
  · rw [if_neg h1]; omega

theorem dt_ltP_asymm (x y : DateTuple) :
    DateTuple.ltP x y → ¬ DateTuple.ltP y x := by
  rw [dt_ltP_iff, dt_ltP_iff]; omega

theorem dt_not_lt_eq (x y : DateTuple)
    (h1 : ¬ DateTuple.ltP x y) (h2 : ¬ DateTuple.ltP y x) : x = y := by
  rw [dt_ltP_iff] at h1 h2
  rw [dt_eq_iff]
  omega

theorem dtt_ltP_asymm (a b : DateTimeTuple) :
    DateTimeTuple.ltP a b → ¬ DateTimeTuple.ltP b a := by
  unfold DateTimeTuple.ltP
  by_cases hd : a.d = b.d
  · rw [if_pos hd, if_pos hd.symm]
    omega
  · rw [if_neg hd, if_neg (Ne.symm hd)]
    exact dt_ltP_asymm a.d b.d

theorem dtt_not_lt_eq (a b : DateTimeTuple)
    (h1 : ¬ DateTimeTuple.ltP a b) (h2 : ¬ DateTimeTuple.ltP b a) :
    a.d = b.d ∧ a.t.to_seconds = b.t.to_seconds := by
  unfold DateTimeTuple.ltP at h1 h2
  by_cases hd : a.d = b.d
  · rw [if_pos hd] at h1
    rw [if_pos hd.symm] at h2
    exact ⟨hd, by omega⟩
  · rw [if_neg hd] at h1
    rw [if_neg (Ne.symm hd)] at h2
    exact absurd (dt_not_lt_eq a.d b.d h1 h2) hd

theorem between_swap (a b : DateTimeTuple) :
    Duration.between a b = Duration.between b a := by
  by_cases hab : a = b
  · rw [hab]
  · unfold Duration.between
    rw [if_neg hab, if_neg (Ne.symm hab)]
    by_cases h1 : DateTimeTuple.ltP a b
    · rw [if_pos h1, if_neg (dtt_ltP_asymm a b h1)]
    · by_cases h3 : DateTimeTuple.ltP b a
      · rw [if_neg h1, if_pos h3]
      · obtain ⟨hdeq, hts⟩ := dtt_not_lt_eq a b h1 h3
        rw [if_neg h1, if_neg h3]
        unfold Duration.betweenOrdered
        rw [hdeq, hts]

/-- `Duration.between` of the minimum and maximum representable
DateTimes, evaluated exactly. -/
theorem between_min_max :
    Duration.between ⟨⟨0, 0, 1⟩, ⟨0, 0, 0⟩⟩ ⟨⟨9999, 11, 31⟩, ⟨23, 59, 59⟩⟩
      = Duration.from_seconds 315569519999 := by
  unfold Duration.between
  rw [if_neg (by decide), if_pos (by decide)]
  unfold Duration.betweenOrdered
  have hmax : DateTuple.to_days
      (DateTimeTuple.d ⟨⟨9999, 11, 31⟩, ⟨23, 59, 59⟩⟩) = 3652425 :=
    to_days_max
  have hmin : DateTuple.to_days
      (DateTimeTuple.d ⟨⟨0, 0, 1⟩, ⟨0, 0, 0⟩⟩) = 1 :=
    to_days_min
  rw [hmax, hmin, if_neg (by omega)]
  norm_num [TimeTuple.to_seconds]

/-- C2: `Duration::between` is total and order-independent, equal
DateTimes give the zero duration, ordered pairs follow the
equal-day-count / distinct-day-count formulas of the spec, and applying
it to the minimum and maximum representable DateTimes yields an exact
second count that fits u64 (and an hour component that fits u32), so the
conversion to total seconds cannot overflow. -/
theorem duration_between_spec :
    (∀ a b, Duration.between a b = Duration.between b a)
    ∧ (∀ a, Duration.between a a = Duration.new 0 0 0)
    ∧ (∀ a b, a ≠ b → DateTimeTuple.ltP a b →
        DateTuple.to_days b.d = DateTuple.to_days a.d →
        Duration.between a b
          = Duration.from_seconds (b.t.to_seconds - a.t.to_seconds))
    ∧ (∀ a b, a ≠ b → DateTimeTuple.ltP a b →
        DateTuple.to_days b.d ≠ DateTuple.to_days a.d →
        Duration.between a b
          = Duration.from_seconds
              ((b.t.to_seconds + 86400 - a.t.to_seconds)
                + 86400 * (DateTuple.to_days b.d - DateTuple.to_days a.d - 1)))
    ∧ ((Duration.between ⟨⟨0, 0, 1⟩, ⟨0, 0, 0⟩⟩
          ⟨⟨9999, 11, 31⟩, ⟨23, 59, 59⟩⟩).to_seconds = 315569519999
        ∧ 315569519999 < 2 ^ 64
        ∧ (Duration.between ⟨⟨0, 0, 1⟩, ⟨0, 0, 0⟩⟩
            ⟨⟨9999, 11, 31⟩, ⟨23, 59, 59⟩⟩).h = 87658199
        ∧ 87658199 < 2 ^ 32) := by
  refine ⟨between_swap, ?_, ?_, ?_, ?_⟩
  · intro a
    unfold Duration.between
    rw [if_pos rfl]
  · intro a b hne hlt hdays
    unfold Duration.between
    rw [if_neg hne, if_pos hlt]
    unfold Duration.betweenOrdered
    rw [if_pos hdays]
  · intro a b hne hlt hdays
    unfold Duration.between
    rw [if_neg hne, if_pos hlt]
    unfold Duration.betweenOrdered
    rw [if_neg hdays]
  · rw [between_min_max]
    refine ⟨by decide, by decide, by decide, by decide⟩

/-- C2 witness: one hour between 08:30:00 and 09:30:00 on the same day,
through the equal-day-count branch of the theorem. -/
theorem duration_between_spec_witness :
    Duration.between ⟨⟨2000, 4, 10⟩, ⟨8, 30, 0⟩⟩ ⟨⟨2000, 4, 10⟩, ⟨9, 30, 0⟩⟩
      = Duration.from_seconds 3600 :=
  duration_between_spec.2.2.1 ⟨⟨2000, 4, 10⟩, ⟨8, 30, 0⟩⟩
    ⟨⟨2000, 4, 10⟩, ⟨9, 30, 0⟩⟩ (by decide) (by decide) rfl

/-- From src/month_tuple.rs `MonthTuple::next_month`: the following
month, saturating at Dec 9999. -/
def MonthTuple.next_month (t : MonthTuple) : MonthTuple :=
  if t.y = 9999 ∧ t.m = 11 then t
  else if t.m = 11 then ⟨t.y + 1, 0⟩ else ⟨t.y, t.m + 1⟩

/-- From src/month_tuple.rs `MonthTuple::add_months`: `months`-fold
iteration of `next_month`. -/
def MonthTuple.add_months : MonthTuple → Nat → MonthTuple
  | t, 0 => t
  | t, n + 1 => MonthTuple.add_months t.next_month n

/-- From src/date_tuple.rs `DateTuple::add_months`: advance the month
component via `MonthTuple` arithmetic, clamping the day of month to the
last day of the resulting month if it overflows. -/
def DateTuple.add_months (t : DateTuple) (months : Nat) : DateTuple :=
  let nm := MonthTuple.add_months ⟨t.y, t.m⟩ months
  let last := get_last_date_in_month nm.m nm.y
  ⟨nm.y, nm.m, if last < t.d then last else t.d⟩

/-- From src/date_tuple.rs `DateTuple::add_years`: year shift with the
result clamped to 9999; a 29 February landing in a non-leap year is
clamped to the 28th. The u16 addition `self.y + years` wraps modulo
65536 in release builds (debug builds panic on overflow), so the
wrapped sum is what the 9999-clamp inspects. -/
def DateTuple.add_years (t : DateTuple) (years : Nat) : DateTuple :=
  let ny0 := (t.y + years) % 65536
  let ny := if 9999 < ny0 then 9999 else ny0
  ⟨ny, t.m,
    if t.m = 1 ∧ t.d = 29 ∧ ¬ is_leap_year ny then 28 else t.d⟩

theorem mt_y (a b : Nat) : (MonthTuple.mk a b).y = a := rfl

theorem mt_m (a b : Nat) : (MonthTuple.mk a b).m = b := rfl

/-- `next_month` keeps the year below 10000 and the month below 12. -/
theorem next_month_bounds (t : MonthTuple) (hy : t.y ≤ 9999)
    (hm : t.m ≤ 11) :
    t.next_month.y ≤ 9999 ∧ t.next_month.m ≤ 11 := by
  unfold MonthTuple.next_month
  split
  · exact ⟨hy, hm⟩
  · rename_i h1
    split
    · rename_i h2
      rw [mt_y, mt_m]
      constructor
      · rcases Nat.lt_or_ge t.y 9999 with h | h
        · omega
        · exact absurd ⟨by omega, h2⟩ h1
      · omega
    · rename_i h2
      rw [mt_y, mt_m]
      omega

/-- `add_months` keeps the year below 10000 and the month below 12. -/
theorem add_months_bounds (n : Nat) :
    ∀ t : MonthTuple, t.y ≤ 9999 → t.m ≤ 11 →
      (t.add_months n).y ≤ 9999 ∧ (t.add_months n).m ≤ 11 := by
  induction n with
  | zero =>
    intro t hy hm
    exact ⟨hy, hm⟩
  | succ k ih =>
    intro t hy hm
    rw [MonthTuple.add_months]
    obtain ⟨h1, h2⟩ := next_month_bounds t hy hm
    exact ih t.next_month h1 h2

theorem dtk_y (a b c : Nat) : (DateTuple.mk a b c).y = a := rfl

theorem dtk_m (a b c : Nat) : (DateTuple.mk a b c).m = b := rfl

theorem dtk_d (a b c : Nat) : (DateTuple.mk a b c).d = c := rfl

theorem add_months_eq (t : DateTuple) (n : Nat) :
    t.add_months n
      = ⟨(MonthTuple.add_months ⟨t.y, t.m⟩ n).y,
        (MonthTuple.add_months ⟨t.y, t.m⟩ n).m,
        if get_last_date_in_month (MonthTuple.add_months ⟨t.y, t.m⟩ n).m
              (MonthTuple.add_months ⟨t.y, t.m⟩ n).y < t.d
        then get_last_date_in_month (MonthTuple.add_months ⟨t.y, t.m⟩ n).m
              (MonthTuple.add_months ⟨t.y, t.m⟩ n).y
        else t.d⟩ := rfl

theorem add_years_eq (t : DateTuple) (n : Nat) :
    t.add_years n
      = ⟨if 9999 < (t.y + n) % 65536 then 9999 else (t.y + n) % 65536, t.m,
        if t.m = 1 ∧ t.d = 29
            ∧ ¬ is_leap_year
                (if 9999 < (t.y + n) % 65536 then 9999
                 else (t.y + n) % 65536)
        then 28 else t.d⟩ := rfl

/-- February's length as the leap-year conditional. -/
theorem lastDate_feb (y : Nat) :
    get_last_date_in_month 1 y = if is_leap_year y then 29 else 28 := rfl

/-- The month length does not depend on the year outside February. -/
theorem lastDate_ne_feb (m y y' : Nat) (h : m ≠ 1) :
    get_last_date_in_month m y = get_last_date_in_month m y' := by
  rcases m with _ | _ | _ | _ | _ | _ | _ | _ | _ | _ | _ | _ | m2
  case succ.succ.succ.succ.succ.succ.succ.succ.succ.succ.succ.succ => rfl
  all_goals first | rfl | exact absurd rfl h

/-- C6: month and year addition clamp the day of month instead of
rolling over: the result of `add_months` is a valid date whose day is
either the original day or the last day of the resulting month, and
never exceeds that last day; `add_years` also returns a valid date; and
concretely, 31 Jan 2000 plus one month is 29 Feb 2000 (leap year) and
29 Feb 2000 plus one year is 28 Feb 2001 (non-leap landing) — dates
written here in the zero-based month encoding of the source. -/
theorem add_months_years_clamp :
    (∀ (t : DateTuple) (n : Nat), t.valid →
      (t.add_months n).valid
      ∧ ((t.add_months n).d = t.d
          ∨ (t.add_months n).d
              = get_last_date_in_month (t.add_months n).m (t.add_months n).y)
      ∧ (t.add_months n).d
          ≤ get_last_date_in_month (t.add_months n).m (t.add_months n).y)
    ∧ (∀ (t : DateTuple) (n : Nat), t.valid → (t.add_years n).valid)
    ∧ DateTuple.add_months ⟨2000, 0, 31⟩ 1 = ⟨2000, 1, 29⟩
    ∧ DateTuple.add_years ⟨2000, 1, 29⟩ 1 = ⟨2001, 1, 28⟩ := by
  refine ⟨?_, ?_, by decide, by decide⟩
  · intro t n hv
    obtain ⟨hy, hm, hd1, hd2⟩ := hv
    obtain ⟨hy', hm'⟩ :=
      add_months_bounds n ⟨t.y, t.m⟩ (by rw [mt_y]; exact hy)
        (by rw [mt_m]; exact hm)
    rw [add_months_eq]
    set q := MonthTuple.add_months ⟨t.y, t.m⟩ n with hq
    have hlast := lastDate_ge q.m q.y
    rw [valid_mk]
    simp only [dtk_y, dtk_m, dtk_d]
    refine ⟨⟨hy', hm', by split <;> omega, by split <;> omega⟩, ?_, ?_⟩
    · split
      · right; rfl
      · left; rfl
    · split <;> omega
  · intro t n hv
    obtain ⟨hy, hm, hd1, hd2⟩ := hv
    rw [add_years_eq, valid_mk]
    have hny9 : (if 9999 < (t.y + n) % 65536 then 9999
        else (t.y + n) % 65536) ≤ 9999 := by
      split <;> omega
    generalize hgen : (if 9999 < (t.y + n) % 65536 then 9999
        else (t.y + n) % 65536) = ny
      at hny9 ⊢
    split
    · rename_i hfeb
      refine ⟨hny9, hm, by omega, ?_⟩
      rw [hfeb.1, lastDate_feb]
      cases hl : is_leap_year ny <;> simp [hl]
    · rename_i hnfeb
      refine ⟨hny9, hm, hd1, ?_⟩
      by_cases h1 : t.m = 1
      · rw [h1] at hd2 hnfeb ⊢
        rw [lastDate_feb] at hd2 ⊢
        have hd2' : t.d ≤ 29 := le_trans hd2 (by split <;> omega)
        cases hl : is_leap_year ny
        · have hd29 : t.d ≠ 29 := by
            intro hc
            exact hnfeb ⟨rfl, hc, by simp [hl]⟩
          have hgoal : (if (false = true) then 29 else 28) = 28 := by simp
          rw [hgoal]
          omega
        · have hgoal : (if (true = true) then 29 else 28) = 29 := by simp
          rw [hgoal]
          omega
      · rw [lastDate_ne_feb t.m ny t.y h1]
        exact hd2

/-- C6 witness: adding one month to 31 Jan 2000 yields a valid date
(the clamped 29 Feb 2000). -/
theorem add_months_years_clamp_witness :
    (DateTuple.add_months ⟨2000, 0, 31⟩ 1).valid :=
  (add_months_years_clamp.1 ⟨2000, 0, 31⟩ 1 (by decide)).1

/-- C1 witness: the error produced for year 10000 carries the Debug
rendering of the offending triple. -/
theorem new_validates_zero_based_witness :
    ∃ pre suf, (DateTuple.msgYear ⟨10000, 5, 10⟩).data
      = pre ++ (DateTuple.dbg ⟨10000, 5, 10⟩).data ++ suf :=
  (new_validates_zero_based.1 10000 5 10).2
    (DateTuple.msgYear ⟨10000, 5, 10⟩) rfl

end DT
